import Mathlib

/-!
Verification of the OmniGraph DSI mapping-rule engine.

The engine consists of four operations, shallowly embedded here from the
JavaScript source:

* `evaluateCondition` and `processDsiSchema` from `src/server/server.js`
  (the condition evaluator and the renderer);
* `generateJsonLd` and `parseJsonToMappings` from the admin UI module
  (the compiler from a structured mapping set to a JSON-LD document, and
  the parser back from a document to a mapping set).

Modelling conventions:

* JSON trees are the inductive `Json`.  Numbers are carried by their
  decimal source text (`Json.num repr`); the development never performs
  arithmetic on document numbers, and every numeric literal used in a
  theorem is already in canonical JavaScript form.
* A JavaScript value that may be `undefined` is an `Option Json`
  (`none` = `undefined`); JSON `null` is the distinct `Json.null`.
* A string whose `JSON.parse` may throw is modelled at the call site by
  an `Option` of its parse result (`none` = the parse throws).
* A caught or escaping JavaScript exception is the `Except.error` case.
* Numeric comparison (`parseFloat`) is modelled over exact rationals;
  `NaN` is `none`, and comparisons against it are `false` as in JS.
-/

/-! ## Character and string helpers (JS semantics) -/

/-- Whitespace recognized by the JS `\s` class and `trim` (ASCII part). -/
def isJsSpace (c : Char) : Bool :=
  c = ' ' || c = '\t' || c = '\n' || c = '\r' || c = '\x0b' || c = '\x0c'

/-- `leadsList s pat` holds when `pat` occurs at the head of `s`. -/
def leadsList : List Char → List Char → Bool
  | _, [] => true
  | [], _ :: _ => false
  | c :: cs, p :: ps => c = p && leadsList cs ps

/-- JS `s.startsWith(pat)`. -/
def beginsWith (s pat : String) : Bool :=
  leadsList s.data pat.data

/-- JS `s.endsWith(pat)`. -/
def finishesWith (s pat : String) : Bool :=
  leadsList s.data.reverse pat.data.reverse

/-- JS `s.slice(1, -1)`: drop the first and last characters. -/
def sliceInner (s : String) : String :=
  String.mk ((s.data.drop 1).dropLast)

/-- JS `s.trim()` (ASCII whitespace). -/
def trimJs (s : String) : String :=
  String.mk (((s.data.dropWhile isJsSpace).reverse.dropWhile isJsSpace).reverse)

/-- JS `s.toUpperCase()` for ASCII strings. -/
def asciiUpper (s : String) : String :=
  String.mk (s.data.map Char.toUpper)

/-! ## `parseFloat` over exact rationals -/

/-- Numeric value of a decimal digit. -/
def digitVal (c : Char) : Nat := c.toNat - '0'.toNat

/-- Decimal digits to a natural number. -/
def digitsToNat (ds : List Char) : Nat :=
  ds.foldl (fun a c => a * 10 + digitVal c) 0

/-- Split a character list into its leading digits and the rest. -/
def takeDigits (cs : List Char) : List Char × List Char :=
  (cs.takeWhile Char.isDigit, cs.dropWhile Char.isDigit)

/-- JS `parseFloat`, over exact rationals; `none` models `NaN`
(no parseable numeric head).  `Infinity` literals are not modelled; no
input in this development produces them. -/
def parseFloatJs (s : String) : Option Rat :=
  let cs := s.data.dropWhile isJsSpace
  let signed : Int × List Char :=
    match cs with
    | '+' :: rest => (1, rest)
    | '-' :: rest => (-1, rest)
    | _ => (1, cs)
  let sgn := signed.1
  let (ip, cs1) := takeDigits signed.2
  let fracSplit : List Char × List Char :=
    match cs1 with
    | '.' :: rest => takeDigits rest
    | _ => ([], cs1)
  let fp := fracSplit.1
  let cs2 := fracSplit.2
  if ip = [] ∧ fp = [] then none
  else
    let mant : Rat := (digitsToNat ip : Rat) + (digitsToNat fp : Rat) / ((10 : Rat) ^ fp.length)
    let expPart : Int :=
      match cs2 with
      | e :: rest =>
        if e = 'e' ∨ e = 'E' then
          match rest with
          | '+' :: r2 => (match takeDigits r2 with | ([], _) => 0 | (ds, _) => (digitsToNat ds : Int))
          | '-' :: r2 => (match takeDigits r2 with | ([], _) => 0 | (ds, _) => -(digitsToNat ds : Int))
          | _ => (match takeDigits rest with | ([], _) => 0 | (ds, _) => (digitsToNat ds : Int))
        else 0
      | [] => 0
    some ((sgn : Rat) * mant * (10 : Rat) ^ expPart)

/-- `a > b` on possibly-NaN numbers: any comparison with NaN is false. -/
def optRatGt : Option Rat → Option Rat → Bool
  | some a, some b => decide (b < a)
  | _, _ => false

/-- `a < b` on possibly-NaN numbers. -/
def optRatLt : Option Rat → Option Rat → Bool
  | some a, some b => decide (a < b)
  | _, _ => false

/-! ## JSON values -/

/-- A JSON-compatible JavaScript value.  Numbers are carried by their
decimal source text (see module header). -/
inductive Json where
  | null
  | bool (b : Bool)
  | num (repr : String)
  | str (s : String)
  | arr (elems : List Json)
  | obj (fields : List (String × Json))

/-- Look a key up in an object's field list (JS property read;
`none` = `undefined`). -/
def lookupField : List (String × Json) → String → Option Json
  | [], _ => none
  | (k', v) :: rest, k => if k' = k then some v else lookupField rest k

/-- JS assignment `o[k] = v`: update in place when the key exists,
append otherwise. -/
def jsInsert : List (String × Json) → String → Json → List (String × Json)
  | [], k, v => [(k, v)]
  | (k', v') :: rest, k, v =>
    if k' = k then (k, v) :: rest else (k', v') :: jsInsert rest k v

/-- JS `delete o[k]`: remove the (first) field named `k`. -/
def eraseField : List (String × Json) → String → List (String × Json)
  | [], _ => []
  | (k', v) :: rest, k => if k' = k then rest else (k', v) :: eraseField rest k

/-- Pair array elements with their JS `for..in` index keys. -/
def enumStrKeys : Nat → List Json → List (String × Json)
  | _, [] => []
  | i, x :: xs => (toString i, x) :: enumStrKeys (i + 1) xs

/-- The entries visited by JS `for (const key in json)` /
`Object.keys(json)`: object fields, array indices, string character
positions; primitives have none. -/
def jsEntries : Json → List (String × Json)
  | .obj fs => fs
  | .arr xs => enumStrKeys 0 xs
  | .str s => enumStrKeys 0 (s.data.map fun c => .str (String.mk [c]))
  | _ => []

/-- JS number-is-zero test on a carried numeric literal. -/
def jsNumZero (r : String) : Bool :=
  match parseFloatJs r with
  | some q => decide (q = 0)
  | none => true

/-- JS truthiness of a value. -/
def jsTruthy : Json → Bool
  | .null => false
  | .bool b => b
  | .num r => !jsNumZero r
  | .str s => !(s = "")
  | .arr _ => true
  | .obj _ => true

/-- JS truthiness of a possibly-`undefined` value. -/
def jsTruthyOpt : Option Json → Bool
  | none => false
  | some v => jsTruthy v

mutual

/-- JS `String(v)` coercion.  Numbers print as their carried literal
(see module header); arrays join their elements with commas. -/
def jsString : Json → String
  | .null => "null"
  | .bool true => "true"
  | .bool false => "false"
  | .num r => r
  | .str s => s
  | .arr xs => jsStringList xs
  | .obj _ => "[object Object]"

/-- Comma-joined `String()` coercion of array elements. -/
def jsStringList : List Json → String
  | [] => ""
  | [x] => jsString x
  | x :: y :: xs => jsString x ++ "," ++ jsStringList (y :: xs)

end

/-- `typeof v === 'object'` for a possibly-`undefined` value
(`null`, arrays and objects satisfy it). -/
def typeofIsObject : Option Json → Bool
  | some .null => true
  | some (.arr _) => true
  | some (.obj _) => true
  | _ => false

/-- JS `json[k]` for a non-numeric key `k` on an arbitrary value:
objects look the key up; other values yield `undefined`.  (Used only
with the literal key `"review"`, which is never an array index.) -/
def jsIndexStr : Json → String → Option Json
  | .obj fs, k => lookupField fs k
  | _, _ => none

/-- JS `base.k` where `base` is itself a property-read result: reading
a property of a truthy non-object gives `undefined`. -/
def propOf : Option Json → String → Option Json
  | some (.obj fs), k => lookupField fs k
  | _, _ => none

/-! ## Mapping data model (admin UI / server `mappings` records) -/

/-- One atomic predicate of a condition chain, with its join token to
the next condition (`"AND"` / `"OR"`, or `"END"` on the terminal one).
Literal values are carried in their string form (JS coerces them with
template interpolation and `String()`). -/
structure Condition where
  field : String
  operator : String
  value : String
  logic : String
deriving DecidableEq

/-- One mapping rule: `type` is `"Text"` (plain substitution) or
`"Condition"` (guarded by `conditions`). -/
structure Mapping where
  id : Nat
  source : String
  target : String
  type : String
  conditions : List Condition
deriving DecidableEq

/-- The `defaultMappings` constant of the admin UI module. -/
def defaultMappings : List Mapping :=
  [ ⟨1, "product.metafields.custom.isbn", "identifier", "Text", []⟩,
    ⟨2, "average_rating", "review", "Condition",
      [ ⟨"review_count", ">", "5", "AND"⟩,
        ⟨"average_rating", ">", "4.5", "END"⟩ ]⟩ ]

/-- The mock `mappings` record of `FIRESTORE_MOCK_DB['default-app-id']`
in `server.js` (same rows as `defaultMappings`). -/
def serverMappings : List Mapping := defaultMappings

/-! ## Condition evaluator (`evaluateCondition`, server.js lines 64-81) -/

/-- `evaluateCondition(field, operator, value, data)`: missing field is
false; `>`/`<` compare `parseFloat` of both sides; `==` compares the
`String()` coercions; every other operator falls to the default branch
and yields false. -/
def evaluateCondition (field operator value : String) (data : List (String × Json)) : Bool :=
  match lookupField data field with
  | none => false
  | some dataValue =>
    if operator = ">" then optRatGt (parseFloatJs (jsString dataValue)) (parseFloatJs value)
    else if operator = "<" then optRatLt (parseFloatJs (jsString dataValue)) (parseFloatJs value)
    else if operator = "==" then decide (jsString dataValue = value)
    else false

/-! ## Rule compiler (`generateJsonLd`, admin UI module lines 71-107) -/

/-- The fixed `productSchema` skeleton object of `generateJsonLd`. -/
def skeletonFields : List (String × Json) :=
  [ ("@context", .str "https://schema.org/"),
    ("@type", .str "Product"),
    ("name", .str "OmniGraph Pro Widget"),
    ("description", .str "A fully customized, SEO-optimized product."),
    ("offers", .obj
      [ ("@type", .str "Offer"),
        ("priceCurrency", .str "USD"),
        ("price", .str "99.99") ]) ]

/-- The condition-chain serialization of `generateJsonLd`: each entry is
rendered as `field operator value logic` where `logic` is recomputed as
`"END"` (rendered as the empty string) on the last index and `"AND"` on
every other index — the stored join token is not consulted — and the
entries are joined with single spaces. -/
def ruleStringOf : List Condition → String
  | [] => ""
  | [c] => c.field ++ " " ++ c.operator ++ " " ++ c.value ++ " "
  | c :: c' :: rest =>
    c.field ++ " " ++ c.operator ++ " " ++ c.value ++ " AND " ++ ruleStringOf (c' :: rest)

/-- One iteration of the `mappings.forEach` body of `generateJsonLd`. -/
def generateStep (o : List (String × Json)) (m : Mapping) : List (String × Json) :=
  let value := if m.source = "" then "" else "[" ++ m.source ++ "]"
  if m.target = "review" ∧ m.type = "Condition" ∧ m.conditions ≠ [] then
    jsInsert
      (jsInsert o "review" (.obj
        [ ("@type", .str "AggregateRating"),
          ("ratingValue_Rule", .str
            ("IF (" ++ ruleStringOf m.conditions ++ ") THEN " ++ value ++ " ELSE [NULL]")) ]))
      ("_comment_rule_" ++ toString m.id)
      (.str ("// Mapped to review with " ++ toString m.conditions.length ++ " condition(s)."))
  else if m.target ≠ "" ∧ m.source ≠ "" then
    jsInsert (jsInsert o m.target (.str value))
      ("_comment_id_" ++ toString m.id)
      (.str ("// Mapped via OmniGraph Node ID " ++ toString m.id))
  else o

/-- `generateJsonLd(mappings)`: fold the rules over the skeleton.  The
JS function returns `JSON.stringify(productSchema, null, 2)`; the
embedding returns the object itself. -/
def generateJsonLd (mappings : List Mapping) : Json :=
  .obj (mappings.foldl generateStep skeletonFields)

/-! ## Rule renderer (`processDsiSchema`, server.js lines 89-151) -/

/-- The configuration record handed to `processDsiSchema`
(`jsonLdTemplate` and `mappings` are JSON strings in the source; each is
modelled by its parse result, `none` when `JSON.parse` throws.  The
template field is modelled for object documents — the only shape
occurring in the repository; a `mappings` string that parses to a
non-array also throws at `mappings.find` and is likewise `none`). -/
structure RulesData where
  jsonLdTemplate : Option (List (String × Json))
  mappings : Option (List Mapping)

/-- Phase A of `processDsiSchema` (lines 96-108): the top-level `for..in`
loop that substitutes `[path]` placeholder strings from `data` and
deletes top-level keys whose source path is missing.  Non-string values
(nested objects included) are left untouched. -/
def phaseA (data : List (String × Json)) : List (String × Json) → List (String × Json)
  | [] => []
  | (k, v) :: rest =>
    match v with
    | .str s =>
      if beginsWith s "[" && finishesWith s "]" then
        match lookupField data (sliceInner s) with
        | some dv => (k, dv) :: phaseA data rest
        | none => phaseA data rest
      else (k, .str s) :: phaseA data rest
    | v => (k, v) :: phaseA data rest

/-- Phase B of `processDsiSchema` (lines 113-141): the hard-coded
`review` conditional.  When `finalSchema.review` and its
`ratingValue_Rule` are both truthy, the first mapping with target
`review` and type `Condition` is looked up; with a non-empty condition
list, all conditions are required to hold (the loop breaks on the first
false one, ignoring the stored join tokens); on success
`review.ratingValue` is set to `data[source] || '5.0'`, on failure the
whole `review` object is deleted; finally the surviving `review` object
has its `ratingValue_Rule` key stripped. -/
def phaseB (data : List (String × Json)) (mappings : List Mapping)
    (o : List (String × Json)) : List (String × Json) :=
  let review? := lookupField o "review"
  if jsTruthyOpt review? && jsTruthyOpt (propOf review? "ratingValue_Rule") then
    let afterRule :=
      match mappings.find? (fun m => m.target = "review" && m.type = "Condition") with
      | some mapping =>
        if mapping.conditions ≠ [] then
          let isMet := mapping.conditions.all
            (fun c => evaluateCondition c.field c.operator c.value data)
          if isMet then
            let injected :=
              match lookupField data mapping.source with
              | some dv => if jsTruthy dv then dv else .str "5.0"
              | none => .str "5.0"
            match review? with
            | some (.obj rv) => jsInsert o "review" (.obj (jsInsert rv "ratingValue" injected))
            | _ => o
          else eraseField o "review"
        else o
      | none => o
    match lookupField afterRule "review" with
    | some (.obj rv') => jsInsert afterRule "review" (.obj (eraseField rv' "ratingValue_Rule"))
    | _ => afterRule
  else o

/-- Phase C of `processDsiSchema` (lines 144-148): strip every top-level
key whose name starts with `_comment`. -/
def phaseC (o : List (String × Json)) : List (String × Json) :=
  o.filter (fun p => !(beginsWith p.1 "_comment"))

/-- `processDsiSchema(data, rulesData)`: parse the two configuration
strings (a failed parse throws out of the function — `Except.error`),
then run the three phases.  The JS function returns
`JSON.stringify(finalSchema, null, 2)`; the embedding returns the final
object. -/
def processDsiSchema (data : List (String × Json)) (rulesData : RulesData) :
    Except Unit (List (String × Json)) :=
  match rulesData.mappings, rulesData.jsonLdTemplate with
  | some mappings, some tmpl => .ok (phaseC (phaseB data mappings (phaseA data tmpl)))
  | _, _ => .error ()

/-- The mock `jsonLdTemplate` of `FIRESTORE_MOCK_DB['default-app-id']`
in `server.js` (lines 23-40), as its parsed object. -/
def serverTemplateFields : List (String × Json) :=
  [ ("@context", .str "https://schema.org/"),
    ("@type", .str "Product"),
    ("name", .str "[product.title]"),
    ("description", .str "A fully customized, SEO-optimized product."),
    ("offers", .obj
      [ ("@type", .str "Offer"),
        ("priceCurrency", .str "USD"),
        ("price", .str "[current_price]") ]),
    ("identifier", .str "[product.metafields.custom.isbn]"),
    ("_comment_id_1", .str "// Mapped via OmniGraph Node ID 1"),
    ("review", .obj
      [ ("@type", .str "AggregateRating"),
        ("ratingValue_Rule", .str
          "IF (review_count > 5 AND average_rating > 4.5 END) THEN [average_rating] ELSE [NULL]") ]),
    ("_comment_rule_2", .str "// Mapped to review with 2 condition(s).") ]

/-! ## Rule parser (`parseJsonToMappings`, admin UI module lines 110-191)

The two regular expressions of the source are embedded as explicit
backtracking matchers with JS semantics: leftmost match, lazy `(.*?)`
groups tried shortest first, greedy `\s*` tried longest first,
alternation tried left to right, `.` not matching line terminators, and
`$` (no `m` flag) matching only at the very end of the input. -/

/-- Does `pat` occur in `cs` at position `i`? -/
def hasAt (cs : List Char) (i : Nat) (pat : List Char) : Bool :=
  leadsList (cs.drop i) pat

/-- Can a `.`-group span `len` characters at position `i`?  (Enough
characters remain and none is a line terminator.) -/
def dotSpan (cs : List Char) (i len : Nat) : Bool :=
  ((cs.drop i).take len).length = len
    && ((cs.drop i).take len).all (fun c => c ≠ '\n' && c ≠ '\r')

/-- Length of the whitespace run at position `i` (the longest span a
greedy `\s*` can take there). -/
def wsRun (cs : List Char) (i : Nat) : Nat :=
  ((cs.drop i).takeWhile isJsSpace).length

/-- The substring of length `len` at position `i`. -/
def sliceAt (cs : List Char) (i len : Nat) : String :=
  String.mk ((cs.drop i).take len)

/-- Candidate lengths for a greedy group: longest first. -/
def descRange (k : Nat) : List Nat :=
  (List.range (k + 1)).reverse

/-- The envelope regex `/IF \((.*?)\) THEN \[(.*?)\] ELSE \[NULL\]/`:
first match anywhere in the string, returning the two lazy captures
(condition block, source path). -/
def matchEnvelope (s : String) : Option (String × String) :=
  let cs := s.data
  let n := cs.length
  (List.range (n + 1)).findSome? fun p =>
    if hasAt cs p "IF (".data then
      (List.range (n + 1)).findSome? fun a =>
        if dotSpan cs (p + 4) a && hasAt cs (p + 4 + a) ") THEN [".data then
          let q := p + 4 + a + 8
          (List.range (n + 1)).findSome? fun b =>
            if dotSpan cs q b && hasAt cs (q + b) "] ELSE [NULL]".data then
              some (sliceAt cs (p + 4) a, sliceAt cs q b)
            else none
        else none
    else none

/-- The operator alternation of the source's condition regex
`(\>|\<\=\=|\!\=\contains|\is empty)`, after JS escape resolution:
`\>` is `>`; `\<\=\=` is `<==`; in `\!\=\contains` the `\c` 'o' pair is
the control escape for `\x0F`, giving `!=` `\x0F` `ntains`; `\i` is a
plain `i`, giving `is empty`.  Alternatives are tried in source order. -/
def opAlts : List (List Char) :=
  [ ">".data,
    "<==".data,
    '!' :: '=' :: '\x0F' :: "ntains".data,
    "is empty".data ]

/-- One `exec` of the condition regex
`/(.*?)\s*(op-alternation)\s*(.*?)\s*(AND|OR|$)/g` starting at
`lastIndex = start`: returns the four captures and the new `lastIndex`
(the end of the match). -/
def ruleExec (cs : List Char) (start : Nat) : Option (String × String × String × String × Nat) :=
  let n := cs.length
  (List.range (n - start + 1)).findSome? fun dp =>
    let p := start + dp
    (List.range (n - p + 1)).findSome? fun f =>
      if dotSpan cs p f then
        let q0 := p + f
        (descRange (wsRun cs q0)).findSome? fun w1 =>
          let q := q0 + w1
          opAlts.findSome? fun op =>
            if hasAt cs q op then
              let r0 := q + op.length
              (descRange (wsRun cs r0)).findSome? fun w2 =>
                let r := r0 + w2
                (List.range (n - r + 1)).findSome? fun v =>
                  if dotSpan cs r v then
                    let t0 := r + v
                    (descRange (wsRun cs t0)).findSome? fun w3 =>
                      let t := t0 + w3
                      if hasAt cs t "AND".data then
                        some (sliceAt cs p f, String.mk op, sliceAt cs r v, "AND", t + 3)
                      else if hasAt cs t "OR".data then
                        some (sliceAt cs p f, String.mk op, sliceAt cs r v, "OR", t + 2)
                      else if t = n then
                        some (sliceAt cs p f, String.mk op, sliceAt cs r v, "", n)
                      else none
                  else none
            else none
      else none

/-- The `while ((ruleMatch = ruleRegex.exec(...)))` loop: repeatedly
`exec`, pushing a condition whenever the `field` capture is non-empty
(`operator` is always non-empty).  Each match consumes at least the
operator, so the fuel `length + 1` suffices. -/
def ruleLoopGo (cs : List Char) : Nat → Nat → List Condition → List Condition
  | 0, _, acc => acc.reverse
  | fuel + 1, lastIndex, acc =>
    match ruleExec cs lastIndex with
    | none => acc.reverse
    | some (field, op, val, logic, endPos) =>
      let acc' :=
        if field ≠ "" then
          ⟨trimJs field, trimJs op, trimJs val,
            if logic = "" then "END" else asciiUpper (trimJs logic)⟩ :: acc
        else acc
      ruleLoopGo cs fuel endPos acc'

/-- Tokenize a condition block into individual conditions. -/
def ruleLoop (s : String) : List Condition :=
  ruleLoopGo s.data (s.data.length + 1) 0 []

/-- `conditions[conditions.length - 1].logic = 'END'` on a non-empty
list. -/
def fixLast : List Condition → List Condition
  | [] => []
  | [c] => [{ c with logic := "END" }]
  | c :: c' :: rest => c :: fixLast (c' :: rest)

/-- Outcome of the loop body of `parseJsonToMappings` for one `(key,
value)` entry (keys starting with `@` or `_comment` are skipped by the
caller): either a thrown `TypeError` (caught by the enclosing
`try`/`catch`), or at most one mapping, given its fresh id.

Branch 1 (placeholder value): a string of the form `[path]` emits a
`Text` mapping, unless the key is `review` and `json['review']` is an
object (`typeof`-object: `null`, array or object) with a truthy
`ratingValue_Rule` — reading that property of `null` throws.

Branch 2 (conditional carrier): key `review` with a `typeof`-object
value; reading `ratingValue_Rule` of `null` throws; a truthy non-string
rule value throws at `.match`; a truthy string is matched against the
envelope regex, and on a match the condition block is tokenized, the
last condition's join is forced to `END`, and a `Condition` mapping is
emitted. -/
def entryOutcome (json : Json) (key : String) (value : Json) :
    Except Unit (Option (Nat → Mapping)) :=
  match value with
  | .str s =>
    if beginsWith s "[" && finishesWith s "]" then
      let source := sliceInner s
      if key = "review" && typeofIsObject (jsIndexStr json "review") then
        match jsIndexStr json "review" with
        | some .null => .error ()
        | some (.obj fs) =>
          if jsTruthyOpt (lookupField fs "ratingValue_Rule") then .ok none
          else .ok (some fun i => ⟨i, source, key, "Text", []⟩)
        | _ => .ok (some fun i => ⟨i, source, key, "Text", []⟩)
      else .ok (some fun i => ⟨i, source, key, "Text", []⟩)
    else .ok none
  | .obj fs =>
    if key = "review" then
      match lookupField fs "ratingValue_Rule" with
      | some (.str ruleString) =>
        if ruleString ≠ "" then
          match matchEnvelope ruleString with
          | some (conditionBlock, source) =>
            .ok (some fun i => ⟨i, source, key, "Condition", fixLast (ruleLoop conditionBlock)⟩)
          | none => .ok none
        else .ok none
      | some v => if jsTruthy v then .error () else .ok none
      | none => .ok none
    else .ok none
  | .null => if key = "review" then .error () else .ok none
  | _ => .ok none

/-- The `for (const key in json)` loop of `parseJsonToMappings`,
assigning fresh sequential ids in discovery order. -/
def parseEntriesLoop (json : Json) : List (String × Json) → Nat → Except Unit (List Mapping)
  | [], _ => .ok []
  | (key, value) :: rest, nextId =>
    if beginsWith key "@" || beginsWith key "_comment" then
      parseEntriesLoop json rest nextId
    else
      match entryOutcome json key value with
      | .error () => .error ()
      | .ok none => parseEntriesLoop json rest nextId
      | .ok (some mk) =>
        match parseEntriesLoop json rest (nextId + 1) with
        | .error () => .error ()
        | .ok tail => .ok (mk nextId :: tail)

/-- Result of `parseJsonToMappings`: a mapping list, or the distinct
failure value `false` of the source. -/
inductive ParseResult where
  | ok (mappings : List Mapping)
  | fail
deriving DecidableEq

/-- `parseJsonToMappings(jsonString)`: the argument is modelled by its
`JSON.parse` result (`none` when the parse throws — caught, returning
`false`).  A `TypeError` thrown inside the loop is likewise caught and
returns `false`.  When the loop recovers nothing but the document has
more than two keys, the fixed `defaultMappings` are returned; an empty
recovery otherwise, and only that, is the failure value. -/
def parseJsonToMappings : Option Json → ParseResult
  | none => .fail
  | some json =>
    match parseEntriesLoop json (jsEntries json) 1 with
    | .error () => .fail
    | .ok newMappings =>
      if newMappings = [] ∧ (jsEntries json).length > 2 then .ok defaultMappings
      else if newMappings ≠ [] then .ok newMappings
      else .fail

/-! ## Basic lemmas about the object operations -/

theorem lookup_none_of_not_key {o : List (String × Json)} {k : String}
    (h : k ∉ o.map Prod.fst) : lookupField o k = none := by
  induction o with
  | nil => rfl
  | cons p rest ih =>
    obtain ⟨k', v⟩ := p
    simp only [List.map_cons, List.mem_cons] at h
    push_neg at h
    have hne : ¬ k' = k := fun hk => h.1 hk.symm
    simp [lookupField, hne, ih h.2]

theorem lookup_some_mem {o : List (String × Json)} {k : String} {v : Json}
    (h : lookupField o k = some v) : (k, v) ∈ o := by
  induction o with
  | nil => simp [lookupField] at h
  | cons p rest ih =>
    obtain ⟨k', v'⟩ := p
    by_cases hk : k' = k
    · subst hk
      simp [lookupField] at h
      subst h
      exact List.mem_cons_self _ _
    · simp only [lookupField, if_neg hk] at h
      exact List.mem_cons_of_mem _ (ih h)

theorem lookup_jsInsert_self (o : List (String × Json)) (k : String) (v : Json) :
    lookupField (jsInsert o k v) k = some v := by
  induction o with
  | nil => simp [jsInsert, lookupField]
  | cons p rest ih =>
    obtain ⟨k', v'⟩ := p
    by_cases h : k' = k
    · simp [jsInsert, h, lookupField]
    · simp [jsInsert, h, lookupField, ih]

theorem lookup_jsInsert_ne (o : List (String × Json)) {k k' : String} (v : Json)
    (h : k' ≠ k) : lookupField (jsInsert o k v) k' = lookupField o k' := by
  have h' : ¬ k = k' := fun hk => h hk.symm
  induction o with
  | nil => simp [jsInsert, lookupField, h']
  | cons p rest ih =>
    obtain ⟨a, b⟩ := p
    by_cases ha : a = k
    · subst ha
      simp [jsInsert, lookupField, h']
    · simp [jsInsert, ha, lookupField, ih]

theorem mem_jsInsert {o : List (String × Json)} {k : String} {v : Json}
    {p : String × Json} (h : p ∈ jsInsert o k v) : p ∈ o ∨ p = (k, v) := by
  induction o with
  | nil =>
    simp [jsInsert] at h
    right; exact h
  | cons q rest ih =>
    obtain ⟨a, b⟩ := q
    by_cases ha : a = k
    · simp only [jsInsert, if_pos ha, List.mem_cons] at h
      rcases h with h | h
      · right; exact h
      · left; exact List.mem_cons_of_mem _ h
    · simp only [jsInsert, if_neg ha, List.mem_cons] at h
      rcases h with h | h
      · left; exact h ▸ List.mem_cons_self _ _
      · rcases ih h with h' | h'
        · left; exact List.mem_cons_of_mem _ h'
        · right; exact h'

theorem keys_jsInsert (o : List (String × Json)) (k : String) (v : Json) :
    (jsInsert o k v).map Prod.fst =
      if k ∈ o.map Prod.fst then o.map Prod.fst else o.map Prod.fst ++ [k] := by
  induction o with
  | nil => simp [jsInsert]
  | cons p rest ih =>
    obtain ⟨a, b⟩ := p
    by_cases ha : a = k
    · subst ha; simp [jsInsert]
    · have ha' : ¬ k = a := fun hk => ha hk.symm
      simp only [jsInsert, if_neg ha, List.map_cons, ih, List.mem_cons, ha', false_or]
      split <;> simp

theorem nodup_keys_jsInsert {o : List (String × Json)} (k : String) (v : Json)
    (h : (o.map Prod.fst).Nodup) : ((jsInsert o k v).map Prod.fst).Nodup := by
  rw [keys_jsInsert]
  split
  · exact h
  · next hk =>
    simp only [List.nodup_append, List.nodup_singleton, true_and]
    refine ⟨h, ?_⟩
    intro a ha hb
    simp only [List.mem_singleton] at hb
    exact hk (hb ▸ ha)

theorem lookup_erase_self {o : List (String × Json)} (k : String)
    (h : (o.map Prod.fst).Nodup) : lookupField (eraseField o k) k = none := by
  induction o with
  | nil => rfl
  | cons p rest ih =>
    obtain ⟨a, b⟩ := p
    simp only [List.map_cons, List.nodup_cons] at h
    by_cases ha : a = k
    · subst ha
      simpa [eraseField] using lookup_none_of_not_key h.1
    · simp [eraseField, ha, lookupField, ih h.2]

/-! ## Lemmas about the renderer phases -/

theorem phaseA_keys_sublist (data : List (String × Json)) (o : List (String × Json)) :
    List.Sublist ((phaseA data o).map Prod.fst) (o.map Prod.fst) := by
  induction o with
  | nil => simp [phaseA]
  | cons p rest ih =>
    obtain ⟨k, v⟩ := p
    match v with
    | .str s =>
      simp only [phaseA]
      split
      · split
        · exact ih.cons₂ k
        · exact ih.cons k
      · exact ih.cons₂ k
    | .null => exact ih.cons₂ k
    | .bool b => exact ih.cons₂ k
    | .num r => exact ih.cons₂ k
    | .arr xs => exact ih.cons₂ k
    | .obj fs => exact ih.cons₂ k

theorem phaseA_lookup_obj (data : List (String × Json)) {o : List (String × Json)}
    {k : String} {rv : List (String × Json)}
    (h : lookupField o k = some (.obj rv)) :
    lookupField (phaseA data o) k = some (.obj rv) := by
  induction o with
  | nil => simp [lookupField] at h
  | cons p rest ih =>
    obtain ⟨a, b⟩ := p
    by_cases ha : a = k
    · subst ha
      simp [lookupField] at h
      subst h
      simp [phaseA, lookupField]
    · simp only [lookupField, if_neg ha] at h
      have tail := ih h
      match b with
      | .str s =>
        simp only [phaseA]
        split
        · split
          · simpa [lookupField, ha] using tail
          · exact tail
        · simpa [lookupField, ha] using tail
      | .null => simpa [phaseA, lookupField, ha] using tail
      | .bool c => simpa [phaseA, lookupField, ha] using tail
      | .num r => simpa [phaseA, lookupField, ha] using tail
      | .arr xs => simpa [phaseA, lookupField, ha] using tail
      | .obj fs => simpa [phaseA, lookupField, ha] using tail

theorem phaseC_lookup {k : String} (o : List (String × Json))
    (h : beginsWith k "_comment" = false) :
    lookupField (phaseC o) k = lookupField o k := by
  induction o with
  | nil => rfl
  | cons p rest ih =>
    obtain ⟨a, b⟩ := p
    by_cases ha : a = k
    · subst ha
      simp [phaseC, h, lookupField]
    · simp only [phaseC, List.filter_cons]
      split
      · simpa [lookupField, ha] using ih
      · simpa [lookupField, ha] using ih

theorem phaseB_review_cond (data : List (String × Json)) (maps : List Mapping)
    {s1 rv : List (String × Json)} {m : Mapping}
    (hnd : (s1.map Prod.fst).Nodup)
    (h1 : lookupField s1 "review" = some (.obj rv))
    (hrule : jsTruthyOpt (lookupField rv "ratingValue_Rule") = true)
    (hfind : maps.find? (fun m' => m'.target = "review" && m'.type = "Condition") = some m)
    (hc : m.conditions ≠ []) :
    (m.conditions.all (fun c => evaluateCondition c.field c.operator c.value data) = true →
      (lookupField (phaseB data maps s1) "review").isSome = true) ∧
    (m.conditions.all (fun c => evaluateCondition c.field c.operator c.value data) = false →
      lookupField (phaseB data maps s1) "review" = none) := by
  have hguard : (jsTruthyOpt (some (Json.obj rv)) &&
      jsTruthyOpt (propOf (some (Json.obj rv)) "ratingValue_Rule")) = true := by
    simp only [propOf]
    rw [hrule]
    rfl
  cases hall : m.conditions.all (fun c => evaluateCondition c.field c.operator c.value data) with
  | true =>
    refine ⟨fun _ => ?_, fun hfalse => by simp at hfalse⟩
    simp only [phaseB, hfind, if_pos hc, hall, h1, hguard, if_true]
    rw [lookup_jsInsert_self]
    simp only
    rw [lookup_jsInsert_self]
    rfl
  | false =>
    refine ⟨fun htrue => by simp at htrue, fun _ => ?_⟩
    simp only [phaseB, hfind, if_pos hc, hall, h1, hguard, if_true,
      Bool.false_eq_true, if_false]
    rw [lookup_erase_self _ hnd]
    simp only
    exact lookup_erase_self _ hnd

theorem processDsi_review_cond (data : List (String × Json)) (maps : List Mapping)
    {tmpl rv : List (String × Json)} {m : Mapping}
    (hnd : (tmpl.map Prod.fst).Nodup)
    (hrv : lookupField tmpl "review" = some (.obj rv))
    (hrule : jsTruthyOpt (lookupField rv "ratingValue_Rule") = true)
    (hfind : maps.find? (fun m' => m'.target = "review" && m'.type = "Condition") = some m)
    (hc : m.conditions ≠ []) :
    ∃ out, processDsiSchema data ⟨some tmpl, some maps⟩ = .ok out ∧
      (lookupField out "review").isSome =
        m.conditions.all (fun c => evaluateCondition c.field c.operator c.value data) := by
  have h1 := phaseA_lookup_obj data hrv
  have hnd1 : ((phaseA data tmpl).map Prod.fst).Nodup :=
    (phaseA_keys_sublist data tmpl).nodup hnd
  obtain ⟨hT, hF⟩ := phaseB_review_cond data maps hnd1 h1 hrule hfind hc
  refine ⟨_, rfl, ?_⟩
  rw [phaseC_lookup _ (by rfl)]
  cases hall : m.conditions.all (fun c => evaluateCondition c.field c.operator c.value data) with
  | true => rw [hT hall]
  | false => rw [hF hall]; rfl

/-! ## Claim C5: join-token handling in the renderer -/

/-- Template used in the C5 counterexample and witness: a `review`
carrier whose embedded chain is written with `OR`. -/
def c5Template : List (String × Json) :=
  [ ("review", .obj
      [ ("@type", .str "AggregateRating"),
        ("ratingValue_Rule", .str "IF (a == 1 OR b == 2) THEN [b] ELSE [NULL]") ]) ]

/-- Mapping list used in the C5 counterexample and witness: a
two-condition chain whose first condition carries the join token `OR`. -/
def c5Mappings : List Mapping :=
  [ ⟨1, "b", "review", "Condition",
      [ ⟨"a", "==", "1", "OR"⟩, ⟨"b", "==", "2", "END"⟩ ]⟩ ]

/-- Claim C5, as stated, is false: with the two-condition chain
`a == 1 OR b == 2`, data where the first condition is false and the
second true (`a = "0"`, `b = "2"`), the renderer deletes the `review`
property (the result is the empty object) instead of resolving the
conditional as true. -/
theorem c5_or_chain_counterexample :
    processDsiSchema [("a", .str "0"), ("b", .str "2")]
      ⟨some c5Template, some c5Mappings⟩ = .ok [] ∧
    evaluateCondition "b" "==" "2" [("a", .str "0"), ("b", .str "2")] = true := by
  exact ⟨rfl, rfl⟩

/-- Claim C5 (amended): the renderer ignores the stored join tokens
entirely; the conditional resolves (the `review` property survives) if
and only if every condition of the chain evaluates true — the loop
breaks on the first false condition — so an `OR` chain whose first
operand is false and second true resolves as false, not true. -/
theorem c5_joins_ignored (data : List (String × Json)) (maps : List Mapping)
    {tmpl rv : List (String × Json)} {m : Mapping}
    (hnd : (tmpl.map Prod.fst).Nodup)
    (hrv : lookupField tmpl "review" = some (.obj rv))
    (hrule : jsTruthyOpt (lookupField rv "ratingValue_Rule") = true)
    (hfind : maps.find? (fun m' => m'.target = "review" && m'.type = "Condition") = some m)
    (hc : m.conditions ≠ []) :
    ∃ out, processDsiSchema data ⟨some tmpl, some maps⟩ = .ok out ∧
      (lookupField out "review").isSome =
        m.conditions.all (fun c => evaluateCondition c.field c.operator c.value data) :=
  processDsi_review_cond data maps hnd hrv hrule hfind hc

/-- Witness for the amended C5 at a concrete input: with both
conditions true the carrier survives. -/
theorem c5_joins_ignored_witness :
    ∃ out, processDsiSchema [("a", .str "1"), ("b", .str "2")]
      ⟨some c5Template, some c5Mappings⟩ = .ok out ∧
      (lookupField out "review").isSome = true :=
  @c5_joins_ignored [("a", .str "1"), ("b", .str "2")] c5Mappings
    c5Template
    [ ("@type", .str "AggregateRating"),
      ("ratingValue_Rule", .str "IF (a == 1 OR b == 2) THEN [b] ELSE [NULL]") ]
    ⟨1, "b", "review", "Condition", [⟨"a", "==", "1", "OR"⟩, ⟨"b", "==", "2", "END"⟩]⟩
    (by decide) rfl rfl rfl (by decide)

/-! ## Claim C8: missing-field fail-closed policy -/

/-- Claim C8: a condition on a field absent from the data record is
false for every operator and literal (the evaluator returns before the
operator switch); consequently rendering the mock
`review_count > 5 AND average_rating > 4.5` chain against any data
record lacking `review_count` removes the carrying `review` property
from the output. -/
theorem c8_missing_field_fail_closed :
    (∀ (field op v : String) (data : List (String × Json)),
      lookupField data field = none → evaluateCondition field op v data = false) ∧
    (∀ (data tmpl rv : List (String × Json)),
      lookupField data "review_count" = none →
      (tmpl.map Prod.fst).Nodup →
      lookupField tmpl "review" = some (.obj rv) →
      jsTruthyOpt (lookupField rv "ratingValue_Rule") = true →
      ∃ out, processDsiSchema data ⟨some tmpl, some serverMappings⟩ = .ok out ∧
        lookupField out "review" = none) := by
  have part1 : ∀ (field op v : String) (data : List (String × Json)),
      lookupField data field = none → evaluateCondition field op v data = false := by
    intro field op v data h
    simp [evaluateCondition, h]
  refine ⟨part1, ?_⟩
  intro data tmpl rv hmiss hnd hrv hrule
  obtain ⟨out, hout, hsome⟩ :=
    processDsi_review_cond data serverMappings hnd hrv hrule rfl (by decide)
  have hev : evaluateCondition "review_count" ">" "5" data = false :=
    part1 "review_count" ">" "5" data hmiss
  have hall : ([ ⟨"review_count", ">", "5", "AND"⟩,
      ⟨"average_rating", ">", "4.5", "END"⟩ ] : List Condition).all
        (fun c => evaluateCondition c.field c.operator c.value data) = false := by
    simp [hev]
  have hnone : (lookupField out "review").isSome = false := by
    rw [hsome]; exact hall
  refine ⟨out, hout, ?_⟩
  cases h : lookupField out "review" with
  | none => rfl
  | some v => rw [h] at hnone; simp at hnone

/-- Witness for C8 at a concrete input: the mock server template and a
data record lacking `review_count`. -/
theorem c8_missing_field_fail_closed_witness :
    evaluateCondition "review_count" "contains" "5" [] = false ∧
    (∃ out, processDsiSchema [("average_rating", .num "4.8")]
        ⟨some serverTemplateFields, some serverMappings⟩ = .ok out ∧
      lookupField out "review" = none) :=
  ⟨c8_missing_field_fail_closed.1 "review_count" "contains" "5" [] rfl,
    c8_missing_field_fail_closed.2 [("average_rating", .num "4.8")]
      serverTemplateFields _ rfl (by decide) rfl rfl⟩

/-! ## Claim C9: carrier handling without a matching condition mapping -/

/-- Template used in the C9 counterexample: the `review` object carries
the `ratingValue_Rule` key with a falsy (empty-string) value. -/
def c9Template : List (String × Json) :=
  [ ("a", .num "1"),
    ("review", .obj
      [ ("@type", .str "AggregateRating"), ("ratingValue_Rule", .str "") ]) ]

/-- Claim C9, as stated, is false: when the `review` object carries the
`ratingValue_Rule` key with a falsy value (here the empty string), the
renderer's guard `finalSchema.review && finalSchema.review.ratingValue_Rule`
fails and the whole block — including the cleanup — is skipped, so the
`ratingValue_Rule` key is retained in the output rather than removed. -/
theorem c9_falsy_rule_counterexample :
    processDsiSchema [] ⟨some c9Template, some []⟩ =
      .ok [ ("a", .num "1"),
        ("review", .obj
          [ ("@type", .str "AggregateRating"), ("ratingValue_Rule", .str "") ]) ] := rfl

/-- Claim C9 (amended): when the `review` object carries
`ratingValue_Rule` with a truthy value (e.g. any non-empty string) and
the mapping list has no entry with target `review`, type `Condition`
and a non-empty condition list, the renderer keeps the `review` object,
removing exactly the `ratingValue_Rule` key: the object is neither
resolved nor deleted. -/
theorem c9_rule_key_stripped (data : List (String × Json)) (maps : List Mapping)
    {tmpl rv : List (String × Json)}
    (hrv : lookupField tmpl "review" = some (.obj rv))
    (hrule : jsTruthyOpt (lookupField rv "ratingValue_Rule") = true)
    (hnone : ∀ m ∈ maps, m.target = "review" → m.type = "Condition" → m.conditions = []) :
    ∃ out, processDsiSchema data ⟨some tmpl, some maps⟩ = .ok out ∧
      lookupField out "review" = some (.obj (eraseField rv "ratingValue_Rule")) := by
  have h1 := phaseA_lookup_obj data hrv
  have hguard : (jsTruthyOpt (some (Json.obj rv)) &&
      jsTruthyOpt (propOf (some (Json.obj rv)) "ratingValue_Rule")) = true := by
    simp only [propOf]
    rw [hrule]
    rfl
  refine ⟨_, rfl, ?_⟩
  rw [phaseC_lookup _ (by rfl)]
  cases hf : maps.find? (fun m' => m'.target = "review" && m'.type = "Condition") with
  | none =>
    simp only [phaseB, h1, hguard, if_true, hf]
    rw [lookup_jsInsert_self]
  | some m' =>
    have hpred := List.find?_some hf
    simp only [Bool.and_eq_true, decide_eq_true_eq] at hpred
    have hmem := List.mem_of_find?_eq_some hf
    have hcond : m'.conditions = [] := hnone m' hmem hpred.1 hpred.2
    simp only [phaseB, h1, hguard, if_true, hf, hcond, ne_eq, not_true_eq_false,
      if_false, reduceIte]
    rw [lookup_jsInsert_self]

/-- Witness for the amended C9 at a concrete input: a truthy carrier
and an empty mapping list leave `review` with only `@type`. -/
theorem c9_rule_key_stripped_witness :
    ∃ out, processDsiSchema []
      ⟨some [ ("review", .obj
        [ ("@type", .str "AggregateRating"),
          ("ratingValue_Rule", .str "IF (x > 1) THEN [y] ELSE [NULL]") ]) ], some []⟩ = .ok out ∧
      lookupField out "review" = some (.obj [("@type", .str "AggregateRating")]) :=
  @c9_rule_key_stripped [] []
    [ ("review", .obj
      [ ("@type", .str "AggregateRating"),
        ("ratingValue_Rule", .str "IF (x > 1) THEN [y] ELSE [NULL]") ]) ]
    [ ("@type", .str "AggregateRating"),
      ("ratingValue_Rule", .str "IF (x > 1) THEN [y] ELSE [NULL]") ]
    rfl rfl (by intro m hm; exact absurd hm (List.not_mem_nil m))

/-! ## Claim C2: exception behaviour of the renderer -/

/-- Claim C2, as stated, is false: a `rulesData` whose `mappings` string
is not valid JSON (its parse throws — modelled `none`) makes
`processDsiSchema` itself throw; the exception escapes the function (it
is caught only by the HTTP endpoint around it). -/
theorem c2_throw_counterexample :
    processDsiSchema [("current_price", .str "49.99")]
      ⟨some serverTemplateFields, none⟩ = .error () := rfl

/-- Claim C2 (amended): `evaluateCondition` always returns normally (it
is a total boolean function of its arguments), and `processDsiSchema`
returns normally exactly when its two embedded configuration strings
parse (template to an object, mappings to an array); when either parse
throws, the exception escapes `processDsiSchema`. -/
theorem c2_exception_propagation :
    (∀ (data tmpl : List (String × Json)) (maps : List Mapping),
      ∃ out, processDsiSchema data ⟨some tmpl, some maps⟩ = .ok out) ∧
    (∀ (data : List (String × Json)) (rd : RulesData),
      rd.jsonLdTemplate = none ∨ rd.mappings = none →
      processDsiSchema data rd = .error ()) := by
  constructor
  · intro data tmpl maps
    exact ⟨_, rfl⟩
  · intro data rd h
    obtain ⟨t, mm⟩ := rd
    rcases h with h | h
    · simp only at h
      subst h
      cases mm <;> rfl
    · simp only at h
      subst h
      rfl

/-- Witness for the amended C2 at concrete inputs. -/
theorem c2_exception_propagation_witness :
    (∃ out, processDsiSchema [] ⟨some [], some []⟩ = .ok out) ∧
    processDsiSchema [] ⟨some [], none⟩ = .error () :=
  ⟨c2_exception_propagation.1 [] [] [],
    c2_exception_propagation.2 [] ⟨some [], none⟩ (Or.inr rfl)⟩

/-! ## Claim C3: depth of the placeholder walk -/

/-- Claim C3 exhibits a code bug: the placeholder loop of
`processDsiSchema` iterates over top-level keys only, so the
`[current_price]` placeholder nested inside the mock template's own
`offers` object is retained literally in the output even though the
data record resolves `current_price` — contradicting both the claimed
depth-first walk and the function's own comment, which names
`[current_price]` as a placeholder it substitutes. -/
theorem c3_nested_placeholder_retained :
    processDsiSchema [("current_price", .str "49.99")]
      ⟨some serverTemplateFields, some serverMappings⟩ =
      .ok [ ("@context", .str "https://schema.org/"),
        ("@type", .str "Product"),
        ("description", .str "A fully customized, SEO-optimized product."),
        ("offers", .obj
          [ ("@type", .str "Offer"), ("priceCurrency", .str "USD"),
            ("price", .str "[current_price]") ]) ] := rfl

/-! ## Claim C7: the implemented operator set -/

/-- Claim C7, as stated, is false: with the tested field present and
differing string forms (`"x"` vs `"b"`), the `!=` operator returns
false — it falls to the evaluator's default branch instead of
implementing inequality. -/
theorem c7_neq_counterexample :
    evaluateCondition "a" "!=" "b" [("a", .str "x")] = false ∧
    jsString (.str "x") ≠ "b" :=
  ⟨rfl, by decide⟩

/-- Claim C7 (amended): only `>`, `<` and `==` are implemented; every
other operator — `!=`, `contains` and `is empty` included — falls to the
default branch and returns false regardless of the field value and
literal. -/
theorem c7_unimplemented_operators (field op v : String) (data : List (String × Json))
    (h1 : op ≠ ">") (h2 : op ≠ "<") (h3 : op ≠ "==") :
    evaluateCondition field op v data = false := by
  unfold evaluateCondition
  cases lookupField data field with
  | none => rfl
  | some dv => simp [h1, h2, h3]

/-- Witness for the amended C7 at a concrete input. -/
theorem c7_unimplemented_operators_witness :
    evaluateCondition "a" "is empty" "" [("a", .str "")] = false :=
  c7_unimplemented_operators "a" "is empty" "" [("a", .str "")]
    (by decide) (by decide) (by decide)

/-- Unfolding equation of `parseJsonToMappings` on a successful JSON
parse. -/
theorem parseJsonToMappings_some (j : Json) :
    parseJsonToMappings (some j) =
      match parseEntriesLoop j (jsEntries j) 1 with
      | .error () => .fail
      | .ok newMappings =>
        if newMappings = [] ∧ (jsEntries j).length > 2 then .ok defaultMappings
        else if newMappings ≠ [] then .ok newMappings
        else .fail := rfl

/-! ## Claim C10: totality and result shape of the parser -/

/-- Claim C10: an input string that is not valid JSON yields the
distinct failure value (the parse throw is caught), and for every
parsed document the result is either the failure value or a non-empty
mapping list — never an empty list (internal `TypeError`s are caught to
the failure value as well). -/
theorem c10_parse_never_throws :
    parseJsonToMappings none = .fail ∧
    ∀ j : Json, parseJsonToMappings (some j) = .fail ∨
      ∃ l, parseJsonToMappings (some j) = .ok l ∧ l ≠ [] := by
  refine ⟨rfl, fun j => ?_⟩
  rw [parseJsonToMappings_some]
  cases h : parseEntriesLoop j (jsEntries j) 1 with
  | error e =>
    cases e
    left
    rfl
  | ok nm =>
    by_cases hnil : nm = []
    · subst hnil
      by_cases hk : (jsEntries j).length > 2
      · right
        exact ⟨defaultMappings, by simp [hk], by decide⟩
      · left
        simp [hk]
    · right
      exact ⟨nm, by simp [hnil], hnil⟩

/-! ## Claim C4: empty recovery on non-trivial input -/

/-- Claim C4, as stated, is false: a document with three properties and
zero recovered mappings does not produce the distinct failure value —
the parser substitutes the fixed non-empty `defaultMappings`,
indistinguishable from a successful parse of those mappings. -/
theorem c4_default_substitution_counterexample :
    parseJsonToMappings (some (.obj [("x", .num "1"), ("y", .num "2"), ("z", .num "3")])) =
      .ok defaultMappings ∧ defaultMappings ≠ [] :=
  ⟨rfl, by decide⟩

/-- Claim C4 (amended): when the recovery loop returns no mappings, the
parser returns the fixed `defaultMappings` when the document has more
than two keys — a substituted non-empty mapping set, not a distinct
failure — and the failure value only when the document has at most two
keys. -/
theorem c4_empty_recovery_behavior (j : Json)
    (h : parseEntriesLoop j (jsEntries j) 1 = .ok []) :
    parseJsonToMappings (some j) =
      if (jsEntries j).length > 2 then .ok defaultMappings else .fail := by
  rw [parseJsonToMappings_some, h]
  by_cases hk : (jsEntries j).length > 2
  · simp [hk]
  · simp [hk]

/-- Witness for the amended C4 at a concrete input. -/
theorem c4_empty_recovery_behavior_witness :
    parseJsonToMappings (some (.obj [("a", .num "1"), ("b", .num "2"), ("c", .num "3")])) =
      .ok defaultMappings :=
  c4_empty_recovery_behavior (.obj [("a", .num "1"), ("b", .num "2"), ("c", .num "3")]) rfl

/-! ## Claim C6: serialization of condition chains by the compiler -/

/-- Spec-side rendering of one predicate: `field operator value`. -/
def condPart (c : Condition) : String :=
  c.field ++ " " ++ c.operator ++ " " ++ c.value

/-- Spec-side join: predicates joined by the literal token `AND` with
single spaces. -/
def joinWithAnd : List String → String
  | [] => ""
  | [x] => x
  | x :: y :: xs => x ++ " AND " ++ joinWithAnd (y :: xs)

/-- The source's chain serialization is the `AND`-join of the rendered
predicates followed by one trailing space (left by interpolating the
suppressed `END` token of the terminal condition). -/
theorem ruleStringOf_eq_joinWithAnd (conds : List Condition) (h : conds ≠ []) :
    ruleStringOf conds = joinWithAnd (conds.map condPart) ++ " " := by
  induction conds with
  | nil => exact absurd rfl h
  | cons c rest ih =>
    cases rest with
    | nil => simp [ruleStringOf, joinWithAnd, condPart]
    | cons c' rest' =>
      have htail : c' :: rest' ≠ [] := by simp
      simp only [ruleStringOf, List.map_cons, joinWithAnd, ih htail]
      simp [condPart, String.append_assoc]

/-- Claim C6, as stated, is false on two counts: (a) a `Conditional`
rule whose chain stores the join token `OR` is serialized with the
literal `AND` between the predicates (and with a trailing space after
the terminal predicate, not a tight `)`); (b) a `Conditional` rule
whose target is not `review` (here `price`) is not serialized into the
`IF` grammar at all — it is compiled as a plain placeholder. -/
theorem c6_serialization_counterexample :
    (jsIndexStr (generateJsonLd [⟨1, "avg", "review", "Condition",
        [⟨"a", ">", "1", "OR"⟩, ⟨"b", ">", "2", "END"⟩]⟩]) "review" =
      some (.obj [ ("@type", .str "AggregateRating"),
        ("ratingValue_Rule", .str "IF (a > 1 AND b > 2 ) THEN [avg] ELSE [NULL]") ])) ∧
    ("IF (a > 1 AND b > 2 ) THEN [avg] ELSE [NULL]" ≠
      "IF (a > 1 OR b > 2) THEN [avg] ELSE [NULL]") ∧
    (jsIndexStr (generateJsonLd [⟨1, "avg", "price", "Condition",
        [⟨"a", ">", "1", "END"⟩]⟩]) "price" = some (.str "[avg]")) :=
  ⟨rfl, by decide, rfl⟩

/-- The key `review` never collides with a comment-marker key. -/
theorem review_ne_comment (t : String) : ("review" : String) ≠ "_comment_rule_" ++ t := by
  intro h
  have h2 := congrArg (fun s => s.data.head?) h
  simp only [String.data_append] at h2
  rw [show (("_comment_rule_" : String).data ++ t.data).head? = some '_' from rfl] at h2
  rw [show ("review" : String).data.head? = some 'r' from rfl] at h2
  simp at h2

/-- Claim C6 (amended): only for `Conditional` rules whose target is
exactly `review` (the carrier property is hard-coded) does the compiler
emit the `IF (...) THEN ... ELSE [NULL]` grammar, and it joins the
rendered predicates with the literal token `AND` regardless of each
condition's stored join token, with single spaces between tokens and
one trailing space after the terminal predicate; the `THEN` part is
`[source]` for a non-empty source and empty otherwise. -/
theorem c6_review_and_serialization (m : Mapping)
    (h1 : m.target = "review") (h2 : m.type = "Condition") (h3 : m.conditions ≠ []) :
    jsIndexStr (generateJsonLd [m]) "review" =
      some (.obj [ ("@type", .str "AggregateRating"),
        ("ratingValue_Rule", .str
          ("IF (" ++ joinWithAnd (m.conditions.map condPart) ++ " ) THEN " ++
            (if m.source = "" then "" else "[" ++ m.source ++ "]") ++ " ELSE [NULL]")) ]) := by
  have hcond : m.target = "review" ∧ m.type = "Condition" ∧ m.conditions ≠ [] :=
    ⟨h1, h2, h3⟩
  simp only [generateJsonLd, List.foldl_cons, List.foldl_nil, generateStep, if_pos hcond,
    jsIndexStr]
  rw [lookup_jsInsert_ne _ _ (review_ne_comment (toString m.id)), lookup_jsInsert_self,
    ruleStringOf_eq_joinWithAnd m.conditions h3]
  simp [String.append_assoc]

/-- Witness for the amended C6 at a concrete rule. -/
theorem c6_review_and_serialization_witness :
    jsIndexStr (generateJsonLd
        [⟨3, "s", "review", "Condition", [⟨"f", "<", "2", "END"⟩]⟩]) "review" =
      some (.obj [ ("@type", .str "AggregateRating"),
        ("ratingValue_Rule", .str "IF (f < 2 ) THEN [s] ELSE [NULL]") ]) :=
  c6_review_and_serialization ⟨3, "s", "review", "Condition", [⟨"f", "<", "2", "END"⟩]⟩
    rfl rfl (by decide)

/-! ## Claim C1: round trip of plain-text mapping sets

The compile side writes each `Text` rule as a `[source]` placeholder
string under its target key; the parse side recovers exactly the
placeholder entries whose keys are not `@`- or `_comment`-prefixed. -/

/-- The `(source, target)` pairs of a mapping list. -/
def pairsOf (l : List Mapping) : List (String × String) :=
  l.map (fun m => (m.source, m.target))

/-- The `[path]` source recovered from a value when it is a placeholder
string. -/
def strPlaceholder? (v : Json) : Option String :=
  match v with
  | .str s => if beginsWith s "[" && finishesWith s "]" then some (sliceInner s) else none
  | _ => none

/-- The `(source, target)` pair recovered from one object entry when it
is a placeholder the parser accepts: a non-`@`, non-`_comment` key
holding a `[path]` string. -/
def placeholderEntry? (k : String) (v : Json) : Option (String × String) :=
  if beginsWith k "@" || beginsWith k "_comment" then none
  else (strPlaceholder? v).map (fun s => (s, k))

/-- All pairs recovered from an object's entries, in order. -/
def recoveredPairs (o : List (String × Json)) : List (String × String) :=
  o.filterMap (fun p => placeholderEntry? p.1 p.2)

/-- Text mappings built from recovered pairs with sequential ids. -/
def mappingsFromPairs : Nat → List (String × String) → List Mapping
  | _, [] => []
  | i, (s, t) :: r => ⟨i, s, t, "Text", []⟩ :: mappingsFromPairs (i + 1) r

theorem pairsOf_mappingsFromPairs (i : Nat) (ps : List (String × String)) :
    pairsOf (mappingsFromPairs i ps) = ps := by
  induction ps generalizing i with
  | nil => rfl
  | cons p r ih =>
    obtain ⟨s, t⟩ := p
    simp [mappingsFromPairs, pairsOf] at ih ⊢
    exact ih (i + 1)

theorem mappingsFromPairs_text (i : Nat) (ps : List (String × String)) :
    ∀ m ∈ mappingsFromPairs i ps, m.type = "Text" ∧ m.conditions = [] := by
  induction ps generalizing i with
  | nil => intro m hm; simp [mappingsFromPairs] at hm
  | cons p r ih =>
    obtain ⟨s, t⟩ := p
    intro m hm
    simp only [mappingsFromPairs, List.mem_cons] at hm
    rcases hm with rfl | hm
    · exact ⟨rfl, rfl⟩
    · exact ih (i + 1) m hm

theorem leadsList_nil (l : List Char) : leadsList l [] = true := by
  cases l <;> rfl

theorem leadsList_append {l p : List Char} (ext : List Char)
    (h : leadsList l p = true) : leadsList (l ++ ext) p = true := by
  induction p generalizing l with
  | nil => exact leadsList_nil _
  | cons c cs ih =>
    cases l with
    | nil => simp [leadsList] at h
    | cons a as =>
      simp only [leadsList, Bool.and_eq_true] at h
      simp only [List.cons_append, leadsList, Bool.and_eq_true]
      exact ⟨h.1, ih h.2⟩

theorem beginsWith_comment_id (t : String) :
    beginsWith ("_comment_id_" ++ t) "_comment" = true := by
  rw [beginsWith, String.data_append]
  exact leadsList_append t.data rfl

theorem placeholder_bracket (s : String) :
    beginsWith ("[" ++ s ++ "]") "[" = true ∧
    finishesWith ("[" ++ s ++ "]") "]" = true ∧
    sliceInner ("[" ++ s ++ "]") = s := by
  obtain ⟨cs⟩ := s
  refine ⟨?_, ?_, ?_⟩
  · show leadsList ('[' :: (cs ++ [']'])) ['['] = true
    simp [leadsList, leadsList_nil]
  · show leadsList ('[' :: (cs ++ [']'])).reverse [']'] = true
    simp [List.reverse_cons, List.reverse_append, leadsList, leadsList_nil]
  · show String.mk ((('[' :: (cs ++ [']'])).drop 1).dropLast) = String.mk cs
    simp

/-- On a document whose `review` property (if any) is a string, the
parse loop never throws and recovers exactly the placeholder entries,
as `Text` mappings with sequential ids. -/
theorem parseLoop_simple (json : Json)
    (hj : typeofIsObject (jsIndexStr json "review") = false) :
    ∀ (entries : List (String × Json)) (nextId : Nat),
    (∀ p ∈ entries, p.1 = "review" → ∃ s, p.2 = Json.str s) →
    parseEntriesLoop json entries nextId =
      .ok (mappingsFromPairs nextId (recoveredPairs entries)) := by
  intro entries
  induction entries with
  | nil => intro nextId _; rfl
  | cons e rest ih =>
    intro nextId hrev
    obtain ⟨key, value⟩ := e
    have hrest : ∀ p ∈ rest, p.1 = "review" → ∃ s, p.2 = Json.str s :=
      fun p hp => hrev p (List.mem_cons_of_mem _ hp)
    by_cases hskip : (beginsWith key "@" || beginsWith key "_comment") = true
    · have hph : placeholderEntry? key value = none := by
        rw [placeholderEntry?, if_pos hskip]
      simp only [parseEntriesLoop, hskip, if_true, recoveredPairs, List.filterMap_cons,
        hph]
      exact ih nextId hrest
    · have hskip' : (beginsWith key "@" || beginsWith key "_comment") = false := by
        simpa using hskip
      match value with
      | .str s =>
        by_cases hpl : (beginsWith s "[" && finishesWith s "]") = true
        · have hph : placeholderEntry? key (Json.str s) = some (sliceInner s, key) := by
            rw [placeholderEntry?, if_neg (by simp [hskip'])]
            simp [strPlaceholder?, hpl]
          have hout : entryOutcome json key (.str s) =
              .ok (some fun i => ⟨i, sliceInner s, key, "Text", []⟩) := by
            rw [entryOutcome]
            simp only [hpl, if_true]
            have hb : (key = "review" && typeofIsObject (jsIndexStr json "review")) = false := by
              rw [hj, Bool.and_false]
            simp only [hb, Bool.false_eq_true, if_false]
          simp only [parseEntriesLoop, hskip, Bool.false_eq_true, if_false, hout,
            recoveredPairs, List.filterMap_cons, hph, ih _ hrest]
          rfl
        · have hph : placeholderEntry? key (Json.str s) = none := by
            rw [placeholderEntry?, if_neg (by simp [hskip'])]
            simp [strPlaceholder?, hpl]
          have hout : entryOutcome json key (.str s) = .ok none := by
            rw [entryOutcome]
            simp only [hpl, Bool.false_eq_true, if_false]
          simp only [parseEntriesLoop, hskip, Bool.false_eq_true, if_false, hout,
            recoveredPairs, List.filterMap_cons, hph]
          exact ih nextId hrest
      | .obj fs =>
        have hkey : key ≠ "review" := by
          intro hk
          obtain ⟨s, hs⟩ := hrev (key, .obj fs) (List.mem_cons_self _ _) hk
          cases hs
        have hph : placeholderEntry? key (Json.obj fs) = none := by
          rw [placeholderEntry?, if_neg (by simp [hskip'])]
          rfl
        have hout : entryOutcome json key (.obj fs) = .ok none := by
          rw [entryOutcome]
          simp [hkey]
        simp only [parseEntriesLoop, hskip, Bool.false_eq_true, if_false, hout,
          recoveredPairs, List.filterMap_cons, hph]
        exact ih nextId hrest
      | .null =>
        have hkey : key ≠ "review" := by
          intro hk
          obtain ⟨s, hs⟩ := hrev (key, .null) (List.mem_cons_self _ _) hk
          cases hs
        have hph : placeholderEntry? key Json.null = none := by
          rw [placeholderEntry?, if_neg (by simp [hskip'])]
          rfl
        have hout : entryOutcome json key .null = .ok none := by
          rw [entryOutcome]
          simp [hkey]
        simp only [parseEntriesLoop, hskip, Bool.false_eq_true, if_false, hout,
          recoveredPairs, List.filterMap_cons, hph]
        exact ih nextId hrest
      | .bool b =>
        have hph : placeholderEntry? key (Json.bool b) = none := by
          rw [placeholderEntry?, if_neg (by simp [hskip'])]
          rfl
        have hout : entryOutcome json key (.bool b) = .ok none := by
          rw [entryOutcome] <;> simp
        simp only [parseEntriesLoop, hskip, Bool.false_eq_true, if_false, hout,
          recoveredPairs, List.filterMap_cons, hph]
        exact ih nextId hrest
      | .num r =>
        have hph : placeholderEntry? key (Json.num r) = none := by
          rw [placeholderEntry?, if_neg (by simp [hskip'])]
          rfl
        have hout : entryOutcome json key (.num r) = .ok none := by
          rw [entryOutcome] <;> simp
        simp only [parseEntriesLoop, hskip, Bool.false_eq_true, if_false, hout,
          recoveredPairs, List.filterMap_cons, hph]
        exact ih nextId hrest
      | .arr xs =>
        have hph : placeholderEntry? key (Json.arr xs) = none := by
          rw [placeholderEntry?, if_neg (by simp [hskip'])]
          rfl
        have hout : entryOutcome json key (.arr xs) = .ok none := by
          rw [entryOutcome] <;> simp
        simp only [parseEntriesLoop, hskip, Bool.false_eq_true, if_false, hout,
          recoveredPairs, List.filterMap_cons, hph]
        exact ih nextId hrest

/-- Inserting under a key that holds no placeholder (or is absent) adds
exactly the new entry's contribution to the recovered multiset. -/
theorem recovered_jsInsert (o : List (String × Json)) (k : String) (v : Json)
    (h : ∀ p ∈ o, p.1 = k → placeholderEntry? p.1 p.2 = none) :
    (recoveredPairs (jsInsert o k v) : Multiset (String × String)) =
      (recoveredPairs o : Multiset (String × String)) +
        ((placeholderEntry? k v).toList : Multiset (String × String)) := by
  induction o with
  | nil =>
    simp only [jsInsert, recoveredPairs, List.filterMap_cons, List.filterMap_nil]
    cases placeholderEntry? k v <;> simp
  | cons p rest ih =>
    obtain ⟨a, b⟩ := p
    have hrest : ∀ q ∈ rest, q.1 = k → placeholderEntry? q.1 q.2 = none :=
      fun q hq => h q (List.mem_cons_of_mem _ hq)
    by_cases ha : a = k
    · subst ha
      have hab : placeholderEntry? a b = none := h (a, b) (List.mem_cons_self _ _) rfl
      simp only [jsInsert, if_pos rfl, recoveredPairs, List.filterMap_cons, hab]
      cases hpe : placeholderEntry? a v <;> simp [hpe, add_comm]
    · simp only [jsInsert, if_neg ha, recoveredPairs, List.filterMap_cons]
      have ih' := ih hrest
      simp only [recoveredPairs] at ih'
      cases hpe : placeholderEntry? a b
      · simp only [hpe]
        exact ih'
      · simp only [hpe, ← Multiset.cons_coe, Multiset.cons_add]
        rw [ih']

/-- Folding `Text` rules with non-empty, pairwise-distinct, unreserved
targets over an object adds exactly the rules' `(source, target)` pairs
to the recovered multiset, and keeps every `review` value a string. -/
theorem generate_fold (M : List Mapping) :
    ∀ o : List (String × Json),
    (∀ m ∈ M, m.type = "Text" ∧ m.source ≠ "" ∧ m.target ≠ "" ∧
      beginsWith m.target "@" = false ∧ beginsWith m.target "_comment" = false) →
    ((M.map Mapping.target).Nodup) →
    (∀ m ∈ M, ∀ p ∈ o, placeholderEntry? p.1 p.2 ≠ none → p.1 ≠ m.target) →
    (∀ p ∈ o, p.1 = "review" → ∃ s, p.2 = Json.str s) →
    ((recoveredPairs (M.foldl generateStep o) : Multiset (String × String)) =
      (recoveredPairs o : Multiset (String × String)) +
        (pairsOf M : Multiset (String × String))) ∧
    (∀ p ∈ M.foldl generateStep o, p.1 = "review" → ∃ s, p.2 = Json.str s) := by
  induction M with
  | nil =>
    intro o _ _ _ hP
    exact ⟨by simp [pairsOf], hP⟩
  | cons m M' ih =>
    intro o hM hnd hdis hP
    have hm := hM m (List.mem_cons_self _ _)
    have hnotc : ¬(m.target = "review" ∧ m.type = "Condition" ∧ m.conditions ≠ []) := by
      rintro ⟨-, h2, -⟩
      rw [hm.1] at h2
      exact absurd h2 (by decide)
    have hpos : m.target ≠ "" ∧ m.source ≠ "" := ⟨hm.2.2.1, hm.2.1⟩
    have hstep : generateStep o m =
        jsInsert (jsInsert o m.target (.str ("[" ++ m.source ++ "]")))
          ("_comment_id_" ++ toString m.id)
          (.str ("// Mapped via OmniGraph Node ID " ++ toString m.id)) := by
      simp only [generateStep, if_neg hnotc, if_pos hpos, if_neg hm.2.1]
    have hpe_target : placeholderEntry? m.target (.str ("[" ++ m.source ++ "]")) =
        some (m.source, m.target) := by
      obtain ⟨hb, hf, hs⟩ := placeholder_bracket m.source
      rw [placeholderEntry?, if_neg (by simp [hm.2.2.2.1, hm.2.2.2.2])]
      simp [strPlaceholder?, hb, hf, hs]
    have hpe_ck : ∀ w, placeholderEntry? ("_comment_id_" ++ toString m.id) w = none := by
      intro w
      rw [placeholderEntry?, if_pos (by simp [beginsWith_comment_id])]
    have h1 : ∀ p ∈ o, p.1 = m.target → placeholderEntry? p.1 p.2 = none := by
      intro p hp hk
      by_contra hne
      exact hdis m (List.mem_cons_self _ _) p hp hne hk
    have hrec1 := recovered_jsInsert o m.target (.str ("[" ++ m.source ++ "]")) h1
    set o1 := jsInsert o m.target (.str ("[" ++ m.source ++ "]")) with ho1
    have h2 : ∀ p ∈ o1, p.1 = ("_comment_id_" ++ toString m.id) →
        placeholderEntry? p.1 p.2 = none := by
      intro p _ hk
      rw [hk]
      exact hpe_ck p.2
    have hrec2 := recovered_jsInsert o1 ("_comment_id_" ++ toString m.id)
      (.str ("// Mapped via OmniGraph Node ID " ++ toString m.id)) h2
    set o2 := jsInsert o1 ("_comment_id_" ++ toString m.id)
      (.str ("// Mapped via OmniGraph Node ID " ++ toString m.id)) with ho2
    have hP2 : ∀ p ∈ o2, p.1 = "review" → ∃ s, p.2 = Json.str s := by
      intro p hp hk
      rcases mem_jsInsert hp with hp1 | rfl
      · rcases mem_jsInsert hp1 with hp0 | rfl
        · exact hP p hp0 hk
        · exact ⟨_, rfl⟩
      · exact ⟨_, rfl⟩
    have hdis2 : ∀ m' ∈ M', ∀ p ∈ o2, placeholderEntry? p.1 p.2 ≠ none → p.1 ≠ m'.target := by
      intro m' hm' p hp hne
      rcases mem_jsInsert hp with hp1 | rfl
      · rcases mem_jsInsert hp1 with hp0 | rfl
        · exact hdis m' (List.mem_cons_of_mem _ hm') p hp0 hne
        · intro heq
          have heq' : m.target = m'.target := heq
          simp only [List.map_cons, List.nodup_cons] at hnd
          exact hnd.1 (heq' ▸ List.mem_map_of_mem Mapping.target hm')
      · exact absurd (hpe_ck _) hne
    have hMtail : ∀ m' ∈ M', m'.type = "Text" ∧ m'.source ≠ "" ∧ m'.target ≠ "" ∧
        beginsWith m'.target "@" = false ∧ beginsWith m'.target "_comment" = false :=
      fun m' hm' => hM m' (List.mem_cons_of_mem _ hm')
    have hndtail : (M'.map Mapping.target).Nodup := by
      simp only [List.map_cons, List.nodup_cons] at hnd
      exact hnd.2
    obtain ⟨hrec', hP'⟩ := ih o2 hMtail hndtail hdis2 hP2
    rw [List.foldl_cons, hstep]
    refine ⟨?_, hP'⟩
    rw [hrec', hrec2, hrec1, hpe_ck, hpe_target]
    simp only [Option.toList_some, Option.toList_none, Multiset.coe_nil, add_zero,
      Multiset.coe_singleton, pairsOf, List.map_cons]
    rw [add_assoc, Multiset.singleton_add, Multiset.cons_coe]

/-- Claim C1, as stated, is false at the empty MappingSet: compiling
`[]` yields the bare skeleton, and parsing it back recovers zero
mappings from a five-key document, so the parser substitutes the fixed
non-empty `defaultMappings` — not a set equal to `[]` up to id
renumbering and order. -/
theorem c1_empty_set_counterexample :
    parseJsonToMappings (some (generateJsonLd [])) = .ok defaultMappings ∧
    (pairsOf defaultMappings : Multiset (String × String)) ≠
      (pairsOf ([] : List Mapping) : Multiset (String × String)) :=
  ⟨rfl, by decide⟩

/-- Claim C1 (amended): for every non-empty MappingSet of `Text` rules
with non-empty sources and non-empty, pairwise-distinct targets none of
which starts with `@` or `_comment`, parsing the compiled document
recovers a mapping list with the same multiset of `(source, target)`
pairs, every recovered rule being `Text` with an empty condition
list. -/
theorem c1_roundtrip_plaintext (M : List Mapping)
    (hne : M ≠ [])
    (hM : ∀ m ∈ M, m.type = "Text" ∧ m.source ≠ "" ∧ m.target ≠ "" ∧
      beginsWith m.target "@" = false ∧ beginsWith m.target "_comment" = false)
    (hnd : (M.map Mapping.target).Nodup) :
    ∃ l, parseJsonToMappings (some (generateJsonLd M)) = .ok l ∧
      (pairsOf l : Multiset (String × String)) =
        (pairsOf M : Multiset (String × String)) ∧
      ∀ m ∈ l, m.type = "Text" ∧ m.conditions = [] := by
  have hskel_pe : ∀ p ∈ skeletonFields, placeholderEntry? p.1 p.2 = none := by decide
  have hnotrev : ∀ p ∈ skeletonFields, p.1 ≠ "review" := by decide
  have hskel_rev : ∀ p ∈ skeletonFields, p.1 = "review" → ∃ s, p.2 = Json.str s :=
    fun p hp h => absurd h (hnotrev p hp)
  have hdis0 : ∀ m ∈ M, ∀ p ∈ skeletonFields,
      placeholderEntry? p.1 p.2 ≠ none → p.1 ≠ m.target :=
    fun m _ p hp hne' => absurd (hskel_pe p hp) hne'
  obtain ⟨hrec, hPfin⟩ := generate_fold M skeletonFields hM hnd hdis0 hskel_rev
  have hrecskel : recoveredPairs skeletonFields = [] := rfl
  rw [hrecskel] at hrec
  simp only [Multiset.coe_nil, zero_add] at hrec
  have hj : typeofIsObject
      (jsIndexStr (Json.obj (M.foldl generateStep skeletonFields)) "review") = false := by
    show typeofIsObject (lookupField (M.foldl generateStep skeletonFields) "review") = false
    cases hL : lookupField (M.foldl generateStep skeletonFields) "review" with
    | none => rfl
    | some v =>
      obtain ⟨s, rfl⟩ := hPfin ("review", v) (lookup_some_mem hL) rfl
      rfl
  have hloop := parseLoop_simple (Json.obj (M.foldl generateStep skeletonFields)) hj
    (M.foldl generateStep skeletonFields) 1 hPfin
  have hlpairs : pairsOf (mappingsFromPairs 1
      (recoveredPairs (M.foldl generateStep skeletonFields))) =
      recoveredPairs (M.foldl generateStep skeletonFields) :=
    pairsOf_mappingsFromPairs 1 _
  have hlmulti : (pairsOf (mappingsFromPairs 1
      (recoveredPairs (M.foldl generateStep skeletonFields))) :
        Multiset (String × String)) = (pairsOf M : Multiset (String × String)) := by
    rw [hlpairs, hrec]
  have hlne : mappingsFromPairs 1
      (recoveredPairs (M.foldl generateStep skeletonFields)) ≠ [] := by
    intro h0
    have h1 : pairsOf (mappingsFromPairs 1
        (recoveredPairs (M.foldl generateStep skeletonFields))) = [] := by
      rw [h0]; rfl
    rw [h1] at hlmulti
    have hM0 : pairsOf M = [] := by
      have h2 := hlmulti.symm
      simpa using h2
    have hMnil : M = [] := by
      cases M with
      | nil => rfl
      | cons a b => simp [pairsOf] at hM0
    exact hne hMnil
  refine ⟨mappingsFromPairs 1 (recoveredPairs (M.foldl generateStep skeletonFields)),
    ?_, hlmulti, mappingsFromPairs_text 1 _⟩
  show parseJsonToMappings (some (Json.obj (M.foldl generateStep skeletonFields))) = _
  rw [parseJsonToMappings_some]
  simp only [jsEntries]
  rw [hloop]
  simp [hlne]

/-- Witness for the amended C1 at a concrete singleton mapping set. -/
theorem c1_roundtrip_plaintext_witness :
    ∃ l, parseJsonToMappings
        (some (generateJsonLd [⟨1, "a.b", "identifier", "Text", []⟩])) = .ok l ∧
      (pairsOf l : Multiset (String × String)) =
        (pairsOf [⟨1, "a.b", "identifier", "Text", []⟩] : Multiset (String × String)) ∧
      ∀ m ∈ l, m.type = "Text" ∧ m.conditions = [] :=
  c1_roundtrip_plaintext [⟨1, "a.b", "identifier", "Text", []⟩]
    (by decide) (by decide) (by decide)
